import Mathlib

/-!
# Verification of the xk6-weaviate marshalling layer

A shallow embedding of `weaviate.go` (the k6 extension for Weaviate):
the dynamic-configuration normalization and request/response marshalling
routines, together with theorems settling the specification claims.

Modelling conventions:
* Go `interface{}` values arriving from the JS runtime are modelled by
  `GoVal`; each constructor is one concrete dynamic type that the
  source's type assertions distinguish.
* A failed *unchecked* type assertion or a nil-pointer dereference is a
  Go runtime panic, modelled by `GoResult.crash`; a returned `error` is
  `GoResult.err`.
* Floating-point payloads are carried as rationals; no claim depends on
  rounding behaviour.
* `strings.ToLower` is modelled by `Char.toLower` per character, which
  agrees with Go on the ASCII strings the code compares against.
* Network calls into the trusted client library are oracle parameters
  (`lib` arguments): the code under verification only builds requests
  and flattens responses.
-/

set_option autoImplicit false

namespace XkWeaviate

/-- A Go `interface{}` value as it arrives from the k6 JS runtime or a Go
caller.  Each constructor is one concrete dynamic type distinguished by
the source's type assertions (`.(string)`, `.([]interface{})`, ...).
`nil` is the untyped nil interface, also the result of a missing map key. -/
inductive GoVal where
  | nil
  | str (s : String)
  | bool (b : Bool)
  | int (n : Int)
  | float64 (x : Rat)
  | float32 (x : Rat)
  | list (xs : List GoVal)
  | strList (xs : List String)
  | float32List (xs : List Rat)
  | float32Map (m : List (String × Rat))
  | strMap (m : List (String × String))
  | map (m : List (String × GoVal))

/-- A Go `map[string]interface{}`, modelled as an association list
(Go maps have unique keys; the first match wins). -/
abbrev GoMap := List (String × GoVal)

/-- Go map indexing `m[k]`: a missing key yields the nil interface value. -/
def goLookup (m : GoMap) (k : String) : GoVal :=
  match m with
  | [] => .nil
  | (k', v) :: rest => if k' = k then v else goLookup rest k

/-- Go map update `m[k] = v` (overwrite or insert). -/
def goSet (m : GoMap) (k : String) (v : GoVal) : GoMap :=
  match m with
  | [] => [(k, v)]
  | (k', v') :: rest => if k' = k then (k, v) :: rest else (k', v') :: goSet rest k v

/-- The checked type assertion `v.(string)`. -/
def GoVal.asString : GoVal → Option String
  | .str s => some s
  | _ => none

/-- The checked type assertion `v.(bool)`. -/
def GoVal.asBool : GoVal → Option Bool
  | .bool b => some b
  | _ => none

/-- The checked type assertion `v.(float64)`. -/
def GoVal.asFloat64 : GoVal → Option Rat
  | .float64 x => some x
  | _ => none

/-- The checked type assertion `v.(float32)`. -/
def GoVal.asFloat32 : GoVal → Option Rat
  | .float32 x => some x
  | _ => none

/-- The checked type assertion `v.([]interface{})`. -/
def GoVal.asList : GoVal → Option (List GoVal)
  | .list xs => some xs
  | _ => none

/-- The checked type assertion `v.([]string)`. -/
def GoVal.asStrList : GoVal → Option (List String)
  | .strList xs => some xs
  | _ => none

/-- The checked type assertion `v.([]float32)`. -/
def GoVal.asFloat32List : GoVal → Option (List Rat)
  | .float32List xs => some xs
  | _ => none

/-- The checked type assertion `v.(map[string]float32)`. -/
def GoVal.asFloat32Map : GoVal → Option (List (String × Rat))
  | .float32Map m => some m
  | _ => none

/-- The checked type assertion `v.(map[string]string)`. -/
def GoVal.asStrMap : GoVal → Option (List (String × String))
  | .strMap m => some m
  | _ => none

/-- The checked type assertion `v.(map[string]interface{})`. -/
def GoVal.asMap : GoVal → Option GoMap
  | .map m => some m
  | _ => none

/-- Outcome of running a Go function: a normal return, a returned
`error`, or a runtime panic (`crash`) from a failed unchecked type
assertion or a nil-pointer dereference. -/
inductive GoResult (α : Type) where
  | ok (a : α)
  | err (e : String)
  | crash (msg : String)
deriving Repr

def GoResult.bind {α β : Type} : GoResult α → (α → GoResult β) → GoResult β
  | .ok a, f => f a
  | .err e, _ => .err e
  | .crash m, _ => .crash m

instance : Monad GoResult where
  pure := .ok
  bind := GoResult.bind

@[simp] theorem GoResult.ok_bind {α β : Type} (a : α) (f : α → GoResult β) :
    (GoResult.ok a).bind f = f a := rfl

@[simp] theorem GoResult.err_bind {α β : Type} (e : String) (f : α → GoResult β) :
    (GoResult.err e).bind f = .err e := rfl

@[simp] theorem GoResult.crash_bind {α β : Type} (m : String) (f : α → GoResult β) :
    (GoResult.crash m).bind f = .crash m := rfl

/-! ## Go string primitives

Implemented over `List Char` so that both concrete evaluation and
symbolic reasoning are straightforward. -/

/-- Predicate `charsStartWith p s` : the character list `p` is a prefix of `s`. -/
def charsStartWith : List Char → List Char → Bool
  | [], _ => true
  | _ :: _, [] => false
  | p :: ps, c :: cs => p == c && charsStartWith ps cs

/-- Predicate `charsContain t s` : the character list `t` occurs contiguously in `s`. -/
def charsContain (t : List Char) : List Char → Bool
  | [] => t.isEmpty
  | c :: rest => charsStartWith t (c :: rest) || charsContain t rest

/-- Go `strings.HasPrefix(s, p)`. -/
def goStartsWith (s p : String) : Bool := charsStartWith p.data s.data

/-- Go `strings.Contains(s, t)`. -/
def goContains (s t : String) : Bool := charsContain t.data s.data

/-- Go `strings.HasSuffix(s, p)`. -/
def goEndsWith (s p : String) : Bool := charsStartWith p.data.reverse s.data.reverse

/-- Go `strings.ToLower(s)` (per-character lowering; agrees with Go on the
ASCII strings this code manipulates). -/
def goToLower (s : String) : String := String.mk (s.data.map Char.toLower)

/-- Go `strings.TrimPrefix(s, p)`: drops `p` only when `s` literally
starts with `p` (case-sensitively); otherwise returns `s` unchanged. -/
def goTrimStart (s p : String) : String :=
  if goStartsWith s p then String.mk (s.data.drop p.data.length) else s

/-! ## Type coercion utilities (`GetStringValue`, `GetStringSlice`, `GetBoolValue`, `ToInt`) -/

/-- Helper `GetStringValue` extracts a string value from a map; comma-ok
assertion, empty string on absence or wrong type. -/
def GetStringValue (m : GoMap) (key : String) : String :=
  match (goLookup m key).asString with
  | some v => v
  | none => ""

/-- Go panic message used for every failed unchecked type assertion
(`interface conversion: ...`); the concrete dynamic-type text is elided. -/
def interfaceConversionMsg : String := "interface conversion"

/-- Go panic message for dereferencing a nil pointer. -/
def nilDerefMsg : String := "invalid memory address or nil pointer dereference"

/-- Element-wise `v.(string)` over a `[]interface{}`: an unchecked
assertion, so a non-string element panics. -/
def stringElems : List GoVal → GoResult (List String)
  | [] => .ok []
  | v :: vs =>
    match v.asString with
    | none => .crash interfaceConversionMsg
    | some s => (stringElems vs).bind fun ss => .ok (s :: ss)

/-- Helper `GetStringSlice` converts an interface to a string slice: if the value
is a `[]interface{}` every element must be a string (unchecked assertion,
panic otherwise); any other dynamic type yields the nil slice (`none`). -/
def GetStringSlice (val : GoVal) : GoResult (Option (List String)) :=
  match val with
  | .list slice => (stringElems slice).bind fun ss => .ok (some ss)
  | _ => .ok none

/-- Helper `GetBoolValue`: stored boolean or the caller-supplied default. -/
def GetBoolValue (m : GoMap) (key : String) (defaultValue : Bool) : Bool :=
  match (goLookup m key).asBool with
  | some b => b
  | none => defaultValue

/-- Go float-to-int conversion truncates toward zero. -/
def ratTrunc (q : Rat) : Int := if 0 ≤ q then q.floor else q.ceil

/-- Numeric value of a digit list (most significant first). -/
def digitsVal (l : List Char) : Nat :=
  l.foldl (fun acc c => acc * 10 + (c.toNat - '0'.toNat)) 0

/-- Go `strconv.Atoi`: optional single sign, then one or more digits
(the int64 range check is irrelevant at the sizes considered here). -/
def goAtoi (s : String) : Option Int :=
  match s.data with
  | [] => none
  | '+' :: rest =>
    if rest ≠ [] ∧ rest.all Char.isDigit then some (digitsVal rest) else none
  | '-' :: rest =>
    if rest ≠ [] ∧ rest.all Char.isDigit then some (-(digitsVal rest : Int)) else none
  | l => if l.all Char.isDigit then some (digitsVal l) else none

/-- Helper `ToInt` handles all numeric types from JS/Go conversions: native int
(the `int`/`int64` cases), float64 (truncated), decimal strings, then the
reflection fallback (float32 via `reflect.Float32`); anything else is
not-found.  Returns the Go `(int, bool)` pair. -/
def ToInt : GoVal → Int × Bool
  | .int n => (n, true)
  | .float64 x => (ratTrunc x, true)
  | .str s =>
    match goAtoi s with
    | some n => (n, true)
    | none => (0, false)
  | .float32 x => (ratTrunc x, true)
  | _ => (0, false)

/-! ## Endpoint resolver (`NewClient`) -/

/-- Auth configuration chosen by `NewClient`: bearer token first,
else API key, else none. -/
inductive AuthConfig where
  | none
  | bearerToken (accessToken : String)
  | apiKey (value : String)
deriving Repr, DecidableEq

/-- The `weaviate.Config` assembled by `NewClient` and handed to the
client library. -/
structure WeaviateConfig where
  Host : String
  Scheme : String
  GrpcHost : String
  Auth : AuthConfig
  Headers : Option (List (String × String))
  StartupTimeoutSec : Option Rat
deriving Repr, DecidableEq

/-- Lines 101–119 of `NewClient`: default the scheme to "http", allow an
explicit `scheme` field, require a string `host`, then extract the scheme
from the host when its *lower-casing* starts with "http://" or
"https://", trimming that prefix from the *original* host. -/
def resolveSchemeHost (cfg : GoMap) : GoResult (String × String) :=
  let scheme :=
    match (goLookup cfg "scheme").asString with
    | some s => s
    | none => "http"
  match (goLookup cfg "host").asString with
  | none => .err "host is required in config"
  | some host =>
    if goStartsWith (goToLower host) "http://" then
      .ok ("http", goTrimStart host "http://")
    else if goStartsWith (goToLower host) "https://" then
      .ok ("https", goTrimStart host "https://")
    else
      .ok (scheme, host)

/-- Lines 121–133 of `NewClient`: take `grpcHost` from the config; when
absent, synthesize `"grpc-" ++ host` for a Weaviate Cloud host (forcing
scheme "https"), otherwise fail.  Returns `(scheme, grpcHost)`. -/
def resolveGrpc (scheme host : String) (cfg : GoMap) : GoResult (String × String) :=
  match (goLookup cfg "grpcHost").asString with
  | some g => .ok (scheme, g)
  | none =>
    if goContains host "weaviate.cloud" then
      .ok ("https", "grpc-" ++ host)
    else
      .err "grpcHost is required in config"

/-- Lines 135–145 of `NewClient`: for a Weaviate Cloud host carrying no
port, append ":443" to the host, append ":443" to the gRPC host when it
has no port, and force scheme "https".  Returns
`(scheme, host, grpcHost)`. -/
def cloudAdjust (scheme host grpcHost : String) : String × String × String :=
  if goContains host "weaviate.cloud" && !(goContains host ":") then
    let host' := host ++ ":443"
    let grpcHost' := if !(goContains grpcHost ":") then grpcHost ++ ":443" else grpcHost
    ("https", host', grpcHost')
  else
    (scheme, host, grpcHost)

/-- The pure part of `NewClient` (lines 100–174): everything up to but
not including the `weaviate.NewClient(config)` library call. -/
def resolveIdentity (cfg : GoMap) : GoResult WeaviateConfig :=
  (resolveSchemeHost cfg).bind fun sh =>
  (resolveGrpc sh.1 sh.2 cfg).bind fun sg =>
  match cloudAdjust sg.1 sh.2 sg.2 with
  | (scheme, host, grpcHost) =>
    let auth : AuthConfig :=
      match (goLookup cfg "authToken").asString with
      | some t => .bearerToken t
      | none =>
        match (goLookup cfg "apiKey").asString with
        | some k => .apiKey k
        | none => .none
    .ok { Host := host, Scheme := scheme, GrpcHost := grpcHost, Auth := auth,
          Headers := (goLookup cfg "headers").asStrMap,
          StartupTimeoutSec := (goLookup cfg "timeout").asFloat64 }

/-- Function `NewClient`: resolve the identity, then call the library constructor
(the oracle `lib`); a library failure is wrapped, a success returns the
client (carrying its config). -/
def NewClient (lib : WeaviateConfig → Except String Unit) (cfg : GoMap) :
    GoResult WeaviateConfig :=
  (resolveIdentity cfg).bind fun c =>
    match lib c with
    | .error e => .err ("failed to create weaviate client: " ++ e)
    | .ok _ => .ok c

/-! ## Schema descriptor builder (`CreateCollection`) -/

/-- Model of `models.Property` as filled in by `CreateCollection`. -/
structure ModelsProperty where
  Name : String
  Description : String
  DataType : Option (List String)
  Tokenization : String
deriving Repr

/-- One `models.VectorConfig` entry built from the `vectorConfig` map. -/
structure VectorConfigEntry where
  Vectorizer : Option GoMap
  VectorIndexType : String
  VectorIndexConfig : Option GoMap

/-- Model of `models.BM25Config` (`k1`/`b` are float32 in the upstream model). -/
structure BM25Config where
  K1 : Rat
  B : Rat

/-- Model of `models.StopwordConfig`. -/
structure StopwordConfig where
  Preset : String
  Additions : Option (List String)
  Removals : Option (List String)

/-- Model of `models.InvertedIndexConfig` as filled in by `CreateCollection`. -/
structure InvertedIndexConfigModel where
  Bm25 : Option BM25Config
  Stopwords : Option StopwordConfig

/-- Model of `models.MultiTenancyConfig`. -/
structure MultiTenancyConfigModel where
  Enabled : Bool
  AutoTenantCreation : Bool
  AutoTenantActivation : Bool

/-- Model of `models.ReplicationConfig`. -/
structure ReplicationConfigModel where
  Factor : Int
  AsyncEnabled : Bool
  DeletionStrategy : String

/-- Model of `models.Class` as assembled by `CreateCollection`. -/
structure ModelsClass where
  Class : String
  Description : String
  Properties : List ModelsProperty
  Vectorizer : String
  VectorIndexType : String
  VectorIndexConfig : Option GoMap
  VectorConfig : Option (List (String × VectorConfigEntry))
  InvertedIndexConfig : Option InvertedIndexConfigModel
  MultiTenancyConfig : Option MultiTenancyConfigModel
  ReplicationConfig : Option ReplicationConfigModel

/-- Lines 231–246: the `invertedIndexConfig` branch.  `k1`, `b` and
`preset` are *unchecked* assertions (`.(float32)`, `.(string)`): a
missing or differently-typed value panics. -/
def buildInvertedIndex (iic : GoMap) : GoResult InvertedIndexConfigModel :=
  ((match (goLookup iic "bm25").asMap with
    | some bm25Config =>
      match (goLookup bm25Config "k1").asFloat32 with
      | none => .crash interfaceConversionMsg
      | some k1 =>
        match (goLookup bm25Config "b").asFloat32 with
        | none => .crash interfaceConversionMsg
        | some b => .ok (some { K1 := k1, B := b })
    | none => .ok none : GoResult (Option BM25Config))).bind fun bm25 =>
  ((match (goLookup iic "stopwords").asMap with
    | some sw =>
      match (goLookup sw "preset").asString with
      | none => .crash interfaceConversionMsg
      | some preset =>
        (GetStringSlice (goLookup sw "additions")).bind fun adds =>
        (GetStringSlice (goLookup sw "removals")).bind fun rems =>
        .ok (some { Preset := preset, Additions := adds, Removals := rems })
    | none => .ok none : GoResult (Option StopwordConfig))).bind fun stopwords =>
  .ok { Bm25 := bm25, Stopwords := stopwords }

/-- Lines 259–270: the replication `factor` type switch (`int64`/`int`
collapse to `.int` here), defaulting to 1 on an unexpected type. -/
def replicationFactor (v : GoVal) : Int :=
  match v with
  | .int n => n
  | .float64 x => ratTrunc x
  | _ => 1

/-- Lines 281–291, the body of the properties loop: a non-map entry is
skipped; `propMap["name"].(string)` is an *unchecked* assertion (panic
when absent or non-string); `dataType` goes through `GetStringSlice`
(nil slice when absent or of the wrong dynamic type, panic only on a
generic sequence holding a non-string). -/
def buildProperty (p : GoVal) : GoResult (Option ModelsProperty) :=
  match p.asMap with
  | none => .ok none
  | some propMap =>
    match (goLookup propMap "name").asString with
    | none => .crash interfaceConversionMsg
    | some name =>
      (GetStringSlice (goLookup propMap "dataType")).bind fun dt =>
      .ok (some { Name := name, Description := GetStringValue propMap "description",
                  DataType := dt, Tokenization := GetStringValue propMap "tokenization" })

/-- The properties loop of lines 280–292. -/
def buildProperties : List GoVal → GoResult (List ModelsProperty)
  | [] => .ok []
  | p :: ps =>
    (buildProperty p).bind fun op =>
    (buildProperties ps).bind fun rest =>
    .ok (match op with
         | some prop => prop :: rest
         | none => rest)

/-- The descriptor-construction part of `CreateCollection`
(lines 186–292), up to but not including the `ClassCreator` call. -/
def buildCollectionClass (collectionName : String) (cc : GoMap) : GoResult ModelsClass :=
  let vectorizer :=
    match (goLookup cc "vectorizer").asString with
    | some s => s
    | none => ""
  let vectorIndexType :=
    match (goLookup cc "vectorIndexType").asString with
    | some s => s
    | none => ""
  let vectorIndexConfig := (goLookup cc "vectorIndexConfig").asMap
  let vectorConfig :=
    match (goLookup cc "vectorConfig").asMap with
    | some vcm =>
      some (vcm.filterMap fun nc =>
        (nc.2.asMap).map fun configMap =>
          (nc.1,
           { Vectorizer := (goLookup configMap "vectorizer").asMap,
             VectorIndexType :=
               match (goLookup configMap "vectorIndexType").asString with
               | some s => s
               | none => "",
             VectorIndexConfig := (goLookup configMap "vectorIndexConfig").asMap
             : VectorConfigEntry }))
    | none => none
  (match (goLookup cc "invertedIndexConfig").asMap with
   | some iic => (buildInvertedIndex iic).bind fun r => .ok (some r)
   | none => .ok none).bind fun invertedIndex =>
  let multiTenancy :=
    match (goLookup cc "multiTenancy").asMap with
    | some mt =>
      some { Enabled := GetBoolValue mt "enabled" false,
             AutoTenantCreation := GetBoolValue mt "autoTenantCreation" false,
             AutoTenantActivation := GetBoolValue mt "autoTenantActivation" false
             : MultiTenancyConfigModel }
    | none => none
  let replicationCfg :=
    match (goLookup cc "replicationConfig").asMap with
    | some rc =>
      some { Factor := replicationFactor (goLookup rc "factor"),
             AsyncEnabled := GetBoolValue rc "asyncEnabled" false,
             DeletionStrategy := GetStringValue rc "deletionStrategy"
             : ReplicationConfigModel }
    | none => none
  (match (goLookup cc "properties").asList with
   | some props => buildProperties props
   | none => .ok []).bind fun properties =>
  .ok { Class := collectionName, Description := GetStringValue cc "description",
        Properties := properties, Vectorizer := vectorizer,
        VectorIndexType := vectorIndexType, VectorIndexConfig := vectorIndexConfig,
        VectorConfig := vectorConfig, InvertedIndexConfig := invertedIndex,
        MultiTenancyConfig := multiTenancy, ReplicationConfig := replicationCfg }

/-- Function `CreateCollection`: build the descriptor, then submit it through the
library oracle. -/
def CreateCollection (lib : ModelsClass → Except String Unit)
    (collectionName : String) (collectionConfig : GoMap) : GoResult Unit :=
  (buildCollectionClass collectionName collectionConfig).bind fun cls =>
    match lib cls with
    | .error e => .err e
    | .ok _ => .ok ()

/-! ## Batch marshaller (`BatchCreate`) -/

/-- Model of `models.Object` as assembled by `BatchCreate` (lines 362–398). -/
structure ModelsObject where
  Class : String
  ID : Option String
  Properties : Option GoMap
  Vector : Option (List Rat)
  Vectors : Option (List (String × List Rat))
  VectorWeights : Option (List (String × Rat))
  Tenant : Option String

/-- Lines 356–399, one iteration of the build loop: `class` is required
(a returned error naming the index), everything else is comma-ok; in the
`vectors` map only `[]float32`-typed entries are kept, and the single
`vector` is consulted only when no `vectors` map is present. -/
def buildBatchObject (i : Nat) (obj : GoMap) : GoResult ModelsObject :=
  match (goLookup obj "class").asString with
  | none => .err ("object at index " ++ toString i ++ " missing class name")
  | some className =>
    let mo : ModelsObject :=
      { Class := className,
        ID := (goLookup obj "id").asString,
        Properties := (goLookup obj "properties").asMap,
        Vector := none, Vectors := none,
        VectorWeights := (goLookup obj "vectorWeights").asFloat32Map,
        Tenant := (goLookup obj "tenant").asString }
    .ok (match (goLookup obj "vectors").asMap with
      | some vectors =>
        { mo with Vectors := some (vectors.filterMap fun nv =>
            (nv.2.asFloat32List).map fun v => (nv.1, v)) }
      | none =>
        match (goLookup obj "vector").asFloat32List with
        | some vec => { mo with Vector := some vec }
        | none => mo)

/-- The object-building loop of `BatchCreate`, indices counting from `i`. -/
def buildBatchObjectsFrom (i : Nat) : List GoMap → GoResult (List ModelsObject)
  | [] => .ok []
  | obj :: rest =>
    (buildBatchObject i obj).bind fun mo =>
    (buildBatchObjectsFrom (i + 1) rest).bind fun ms =>
    .ok (mo :: ms)

/-- Lines 355–399: validate and convert the whole input list (indices
from 0); the first entry lacking a string `class` aborts everything. -/
def buildBatchObjects (objects : List GoMap) : GoResult (List ModelsObject) :=
  buildBatchObjectsFrom 0 objects

/-- The `Result` payload of one library batch result
(`*models.ObjectsGetResponseAO2Result`): a nullable status string and a
nullable error response whose `.Error` field is carried opaquely. -/
structure BatchResultPayload where
  Status : Option String
  Errors : Option GoVal

/-- One entry of the library's batch response. -/
structure BatchResultItem where
  Class : String
  ID : String
  Result : Option BatchResultPayload

/-- Lines 412–423, flattening one library result into the JS map.  Note
the source dereferences `result.Result.Status` in the map literal
*before* the `result.Result != nil` check, so a nil `Result` or nil
`Status` is a nil-pointer panic. -/
def flattenBatchResult (result : BatchResultItem) : GoResult GoMap :=
  match result.Result with
  | none => .crash nilDerefMsg
  | some payload =>
    match payload.Status with
    | none => .crash nilDerefMsg
    | some st =>
      let res : GoMap :=
        [("class", .str result.Class), ("id", .str result.ID),
         ("status", .str (goToLower st))]
      match payload.Errors with
      | some errVal => .ok (goSet (goSet res "status" (.str "error")) "error" errVal)
      | none => .ok res

/-- The result-flattening loop of lines 410–424. -/
def flattenBatchResults : List BatchResultItem → GoResult (List GoMap)
  | [] => .ok []
  | r :: rs =>
    (flattenBatchResult r).bind fun m =>
    (flattenBatchResults rs).bind fun ms =>
    .ok (m :: ms)

/-- Function `BatchCreate`: build all objects (aborting on the first missing
class), submit through the library oracle, then flatten the results. -/
def BatchCreate (lib : List ModelsObject → Except String (List BatchResultItem))
    (objects : List GoMap) : GoResult (List GoMap) :=
  (buildBatchObjects objects).bind fun mos =>
    match lib mos with
    | .error e => .err e
    | .ok results => flattenBatchResults results

/-! ## Filter builder (`BatchDelete`) -/

/-- The enumerated `filters` operators the source recognizes. -/
inductive WhereOperator where
  | Equal
  | Like
  | ContainsAny
  | LessThan
deriving Repr, DecidableEq

/-- The `filters.WhereBuilder` state accumulated by `BatchDelete`. -/
structure WhereBuilder where
  Operator : Option WhereOperator := none
  Path : Option (List String) := none
  ValueString : Option String := none
  ValueText : Option (List String) := none
deriving Repr, DecidableEq

/-- Lines 436–477: decode the `where` mapping.  An unrecognized operator
string is silently dropped; a `path` given as `[]interface{}` is
converted with *unchecked* element assertions (panic on a non-string),
as is a `valueText` list; a `valueText` string goes through the same
variadic setter as a one-element list. -/
def buildWhere (whereFilter : GoMap) : GoResult WhereBuilder :=
  let w : WhereBuilder := {}
  let w :=
    match (goLookup whereFilter "operator").asString with
    | some op =>
      if op = "Equal" then { w with Operator := some .Equal }
      else if op = "Like" then { w with Operator := some .Like }
      else if op = "ContainsAny" then { w with Operator := some .ContainsAny }
      else if op = "LessThan" then { w with Operator := some .LessThan }
      else w
    | none => w
  ((match (goLookup whereFilter "path").asStrList with
    | some path => .ok { w with Path := some path }
    | none =>
      match (goLookup whereFilter "path").asList with
      | some pathVals => (stringElems pathVals).bind fun p => .ok { w with Path := some p }
      | none => .ok w : GoResult WhereBuilder)).bind fun w =>
  let w :=
    match (goLookup whereFilter "valueString").asString with
    | some vs => { w with ValueString := some vs }
    | none => w
  ((match (goLookup whereFilter "valueText").asList with
    | some vt => (stringElems vt).bind fun ts => .ok { w with ValueText := some ts }
    | none =>
      match (goLookup whereFilter "valueText").asString with
      | some vt => .ok { w with ValueText := some [vt] }
      | none => .ok w : GoResult WhereBuilder)).bind fun w =>
  .ok w

/-- The `ObjectsBatchDeleter` request state accumulated by `BatchDelete`. -/
structure ObjectsBatchDeleter where
  ClassName : String
  Where : Option WhereBuilder := none
  DryRun : Option Bool := none
  Output : Option String := none
  Tenant : Option String := none
  ConsistencyLevel : Option String := none
deriving Repr, DecidableEq

/-- Predicate: `s` is a key of the lines 494–498 / 581–585 `replicationMap`. -/
def replicationMapHas (s : String) : Bool :=
  s == "all" || s == "one" || s == "quorum"

/-- Go map indexing into `replicationMap`: a missing key yields the zero
value `""` (the silent degrade of the delete path). -/
def replicationMap (s : String) : String :=
  if s == "all" then "ALL"
  else if s == "one" then "ONE"
  else if s == "quorum" then "QUORUM"
  else ""

/-- Lines 431–503 of `BatchDelete`: build the delete request.  Note the
consistency level is `replicationMap[consistencyLevel]`, which is `""`
for an unrecognized key — no error. -/
def batchDeleteBuild (className : String) (options : GoMap) :
    GoResult ObjectsBatchDeleter :=
  let d : ObjectsBatchDeleter := { ClassName := className }
  ((match (goLookup options "where").asMap with
    | some whereFilter => (buildWhere whereFilter).bind fun w => .ok { d with Where := some w }
    | none => .ok d : GoResult ObjectsBatchDeleter)).bind fun d =>
  let d :=
    match (goLookup options "dryRun").asBool with
    | some b => { d with DryRun := some b }
    | none => d
  let d :=
    match (goLookup options "output").asString with
    | some o => { d with Output := some o }
    | none => d
  let d :=
    match (goLookup options "tenant").asString with
    | some t => { d with Tenant := some t }
    | none => d
  let d :=
    match (goLookup options "consistencyLevel").asString with
    | some cl => { d with ConsistencyLevel := some (replicationMap cl) }
    | none => d
  .ok d

/-- One entry of the library's batch-delete response object list. -/
structure BatchDeleteResultObject where
  ID : String
  Status : Option String
  Errors : Option GoVal

/-- The `response.Results` payload of the library's batch-delete
response. -/
structure BatchDeleteResults where
  Matches : Int
  Successful : Int
  Failed : Int
  Objects : Option (List BatchDeleteResultObject)

/-- Lines 519–527, flattening one per-object delete result (again a
nil `Status` pointer would panic at `*obj.Status`). -/
def flattenBatchDeleteObject (obj : BatchDeleteResultObject) : GoResult GoMap :=
  match obj.Status with
  | none => .crash nilDerefMsg
  | some st =>
    let m : GoMap := [("id", .str obj.ID), ("status", .str (goToLower st))]
    match obj.Errors with
    | some e => .ok (goSet m "error" e)
    | none => .ok m

/-- The per-object loop of lines 517–529. -/
def flattenBatchDeleteObjects : List BatchDeleteResultObject → GoResult (List GoMap)
  | [] => .ok []
  | o :: os =>
    (flattenBatchDeleteObject o).bind fun m =>
    (flattenBatchDeleteObjects os).bind fun ms =>
    .ok (m :: ms)

/-- Function `BatchDelete`: build the request, run it through the library oracle,
and flatten the response summary (lines 505–531). -/
def BatchDelete (lib : ObjectsBatchDeleter → Except String BatchDeleteResults)
    (className : String) (options : GoMap) : GoResult GoMap :=
  (batchDeleteBuild className options).bind fun d =>
    match lib d with
    | .error e => .err e
    | .ok response =>
      let output : GoMap :=
        [("matches", .int response.Matches),
         ("successful", .int response.Successful),
         ("failed", .int response.Failed)]
      match response.Objects with
      | some objs =>
        (flattenBatchDeleteObjects objs).bind fun ms =>
        .ok (goSet output "objects" (.list (ms.map .map)))
      | none => .ok output

/-! ## Object I/O adapter (`ObjectInsert`, `FetchObjects`) -/

/-- The `data.Creator` request state accumulated by `ObjectInsert`. -/
structure DataCreator where
  ClassName : String
  ID : Option String := none
  Properties : Option GoMap := none
  Vector : Option (List Rat) := none
  Vectors : Option (List (String × List Rat)) := none
  Tenant : Option String := none
  ConsistencyLevel : Option String := none

/-- Lines 549–554 / 563–568: element-wise float64-to-float32 conversion
of a generic vector; a non-float64 element leaves the zero value 0 in
its slot (comma-ok assertion, no panic). -/
def float32VecOf (vec : List GoVal) : List Rat :=
  vec.map fun v =>
    match v.asFloat64 with
    | some f => f
    | none => 0

/-- Lines 535–592 of `ObjectInsert`: build the insert request.  An
unrecognized `consistencyLevel` string is a returned error (the hard
side of the documented asymmetry with `BatchDelete`). -/
def objectInsertBuild (className : String) (object : GoMap) : GoResult DataCreator :=
  let c : DataCreator := { ClassName := className }
  let c :=
    match (goLookup object "id").asString with
    | some id => { c with ID := some id }
    | none => c
  let c :=
    match (goLookup object "properties").asMap with
    | some props => { c with Properties := some props }
    | none => c
  let c :=
    match (goLookup object "vector").asList with
    | some vec => { c with Vector := some (float32VecOf vec) }
    | none => c
  let c :=
    match (goLookup object "vectors").asMap with
    | some vectors =>
      { c with Vectors := some (vectors.filterMap fun nv =>
          (nv.2.asList).map fun vs => (nv.1, float32VecOf vs)) }
    | none => c
  let c :=
    match (goLookup object "tenant").asString with
    | some t => { c with Tenant := some t }
    | none => c
  match (goLookup object "consistencyLevel").asString with
  | some cl =>
    if replicationMapHas cl then .ok { c with ConsistencyLevel := some (replicationMap cl) }
    else .err ("invalid consistency level: " ++ cl)
  | none => .ok c

/-- The `wrapper.Object` returned by the library for an insert. -/
structure InsertResponseObject where
  ID : String
  Properties : GoVal
  Vector : List Rat
  Vectors : List (String × List Rat)
  Tenant : String

/-- Lines 600–617: flatten the insert response, omitting empty vector
fields and an empty tenant. -/
def objectInsertFlatten (o : InsertResponseObject) : GoMap :=
  let result : GoMap := [("id", .str o.ID), ("properties", o.Properties)]
  let result :=
    if o.Vector.length > 0 then goSet result "vector" (.float32List o.Vector) else result
  let result :=
    if o.Vectors.length > 0 then
      goSet result "vectors" (.map (o.Vectors.map fun nv => (nv.1, GoVal.float32List nv.2)))
    else result
  let result :=
    if o.Tenant ≠ "" then goSet result "tenant" (.str o.Tenant) else result
  result

/-- Function `ObjectInsert`: build the request, submit through the library
oracle, flatten the response. -/
def ObjectInsert (lib : DataCreator → Except String InsertResponseObject)
    (className : String) (object : GoMap) : GoResult GoMap :=
  (objectInsertBuild className object).bind fun c =>
    match lib c with
    | .error e => .err e
    | .ok wrapper => .ok (objectInsertFlatten wrapper)

/-- Go's comma-ok map *presence* test `_, exists := m[k]` (present key,
even one holding nil, differs from an absent key). -/
def goHasKey (m : GoMap) (k : String) : Bool :=
  match m with
  | [] => false
  | (k', _) :: rest => k' == k || goHasKey rest k

/-- The `data.ObjectsGetter` query state accumulated by `FetchObjects`.
`QueryVector` is the `WithVector()` switch. -/
structure ObjectsGetter where
  ClassName : String
  ID : Option String := none
  Limit : Option Int := none
  Offset : Option Int := none
  After : Option String := none
  ConsistencyLevel : Option String := none
  Tenant : Option String := none
  NodeName : Option String := none
  QueryVector : Bool := false
  Additional : List String := []
deriving Repr, DecidableEq

/-- Lines 675–685 / 688–698, the body of the additional-properties loop:
"vector" switches on vector retrieval, "id" is skipped, anything else is
passed as a generic additional property. -/
def applyAdditionalProp (g : ObjectsGetter) (prop : String) : ObjectsGetter :=
  if prop == "vector" then { g with QueryVector := true }
  else if prop == "id" then g
  else { g with Additional := g.Additional ++ [prop] }

/-- Lines 623–662 of `FetchObjects`: the query state accumulated before
the additional-properties handling.  Every assertion is comma-ok, so
this is total. -/
def fetchObjectsBase (className : String) (options : GoMap) : ObjectsGetter :=
  let g : ObjectsGetter := { ClassName := className }
  let g :=
    match (goLookup options "id").asString with
    | some id => { g with ID := some id }
    | none => g
  let g :=
    if goHasKey options "limit" then
      match ToInt (goLookup options "limit") with
      | (limit, true) => { g with Limit := some limit }
      | (_, false) => g
    else g
  let g :=
    if goHasKey options "offset" then
      match ToInt (goLookup options "offset") with
      | (offset, true) => { g with Offset := some offset }
      | (_, false) => g
    else g
  let g :=
    match (goLookup options "after").asString with
    | some a => { g with After := some a }
    | none => g
  let g :=
    match (goLookup options "consistencyLevel").asString with
    | some cl => { g with ConsistencyLevel := some cl }
    | none => g
  let g :=
    match (goLookup options "tenant").asString with
    | some t => { g with Tenant := some t }
    | none => g
  let g :=
    match (goLookup options "nodeName").asString with
    | some n => { g with NodeName := some n }
    | none => g
  g

/-- Lines 623–699 of `FetchObjects`: the full query build.  In the
`[]interface{}` branch of `additional`, a non-string element leaves the
zero value `""` in its slot (comma-ok assertion) and processing
continues. -/
def fetchObjectsBuild (className : String) (options : GoMap) : ObjectsGetter :=
  let g := fetchObjectsBase className options
  match (goLookup options "additional").asList with
  | some additional =>
    let additionalProps := additional.map fun prop => prop.asString.getD ""
    additionalProps.foldl applyAdditionalProp g
  | none =>
    match (goLookup options "additional").asStrList with
    | some additional => additional.foldl applyAdditionalProp g
    | none => g

/-- One object of the library's fetch response. -/
structure FetchedObject where
  ID : String
  Properties : GoVal
  Vector : List Rat
  Vectors : List (String × List Rat)
  Additional : Option GoMap

/-- Lines 711–733: flatten one fetched object. -/
def fetchObjectFlatten (obj : FetchedObject) : GoMap :=
  let item : GoMap := [("id", .str obj.ID), ("properties", obj.Properties)]
  let item :=
    if obj.Vector.length > 0 then goSet item "vector" (.float32List obj.Vector) else item
  let item :=
    if obj.Vectors.length > 0 then
      goSet item "vectors" (.map (obj.Vectors.map fun nv => (nv.1, GoVal.float32List nv.2)))
    else item
  let item :=
    match obj.Additional with
    | some add => goSet item "additional" (.map add)
    | none => item
  item

/-- Function `FetchObjects`: build the query, run it through the library oracle,
and wrap the flattened objects under the "objects" key. -/
def FetchObjects (lib : ObjectsGetter → Except String (List FetchedObject))
    (className : String) (options : GoMap) : GoResult GoMap :=
  match lib (fetchObjectsBuild className options) with
  | .error e => .err e
  | .ok objects =>
    .ok [("objects", .list (objects.map fun o => .map (fetchObjectFlatten o)))]

/-! ## Generic lemmas about the string primitives -/

theorem charsStartWith_append (p s : List Char) : charsStartWith p (p ++ s) = true := by
  induction p with
  | nil => rfl
  | cons c cs ih => simp [charsStartWith, ih]

theorem charsStartWith_decomp {p s : List Char} (h : charsStartWith p s = true) :
    s = p ++ s.drop p.length := by
  induction p generalizing s with
  | nil => simp
  | cons c cs ih =>
    cases s with
    | nil => simp [charsStartWith] at h
    | cons b bs =>
      simp only [charsStartWith, Bool.and_eq_true, beq_iff_eq] at h
      simp only [List.length_cons, List.drop_succ_cons, List.cons_append, List.cons.injEq]
      exact ⟨h.1.symm, ih h.2⟩

theorem charsContain_cons (t : List Char) (c : Char) (rest : List Char) :
    charsContain t (c :: rest) = (charsStartWith t (c :: rest) || charsContain t rest) := rfl

theorem charsContain_drop_false (t : List Char) :
    ∀ (n : Nat) (l : List Char), charsContain t l = false →
      charsContain t (List.drop n l) = false := by
  intro n
  induction n with
  | zero => intro l h; simpa using h
  | succ k ih =>
    intro l h
    cases l with
    | nil => simpa using h
    | cons c rest =>
      rw [List.drop_succ_cons]
      apply ih
      rw [charsContain_cons] at h
      exact (Bool.or_eq_false_iff.mp h).2

theorem stringData_append (s p : String) : (s ++ p).data = s.data ++ p.data := rfl

theorem goEndsWith_append (s p : String) : goEndsWith (s ++ p) p = true := by
  unfold goEndsWith
  rw [stringData_append, List.reverse_append]
  exact charsStartWith_append _ _

theorem charsContain_single_append (c : Char) (l₁ l₂ : List Char) :
    charsContain [c] (l₁ ++ l₂) = (charsContain [c] l₁ || charsContain [c] l₂) := by
  induction l₁ with
  | nil => simp [charsContain]
  | cons x xs ih =>
    simp [charsContain_cons, charsStartWith, ih, Bool.or_assoc]

theorem goContains_goTrimStart_false (h p t : String) (hc : goContains h t = false) :
    goContains (goTrimStart h p) t = false := by
  unfold goTrimStart
  split
  · exact charsContain_drop_false _ _ _ hc
  · exact hc

/-! ## Theorems about the endpoint resolver -/

/-- A trivially succeeding library-constructor oracle, for concrete
instantiations. -/
def libOk : WeaviateConfig → Except String Unit := fun _ => Except.ok ()

/-- Whatever host string the config carries, `resolveSchemeHost` never
fails on it and only ever drops a prefix of it. -/
theorem resolveSchemeHost_shape (cfg : GoMap) (h : String)
    (hh : (goLookup cfg "host").asString = some h) :
    ∃ s n, resolveSchemeHost cfg = .ok (s, String.mk (h.data.drop n)) := by
  unfold resolveSchemeHost
  rw [hh]
  by_cases h1 : goStartsWith (goToLower h) "http://" = true
  · refine ⟨"http", ?_⟩
    unfold goTrimStart
    by_cases h2 : goStartsWith h "http://" = true
    · exact ⟨"http://".data.length, by simp [h1, h2]⟩
    · exact ⟨0, by simp [h1, h2]⟩
  · by_cases h3 : goStartsWith (goToLower h) "https://" = true
    · refine ⟨"https", ?_⟩
      unfold goTrimStart
      by_cases h4 : goStartsWith h "https://" = true
      · exact ⟨"https://".data.length, by simp [h1, h3, h4]⟩
      · exact ⟨0, by simp [h1, h3, h4]⟩
    · refine ⟨(match (goLookup cfg "scheme").asString with
               | some s => s
               | none => "http"), 0, ?_⟩
      simp [h1, h3]

/-- C8: `NewClient` fails with a configuration error — for *every*
library oracle, i.e. before any network call — when the config lacks a
string `host`, and when a non-cloud host comes without a string
`grpcHost`. -/
theorem newClient_missing_host_or_grpc_errors :
    (∀ (lib : WeaviateConfig → Except String Unit) (cfg : GoMap),
       (goLookup cfg "host").asString = none →
       NewClient lib cfg = .err "host is required in config")
    ∧
    (∀ (lib : WeaviateConfig → Except String Unit) (cfg : GoMap) (h : String),
       (goLookup cfg "host").asString = some h →
       goContains h "weaviate.cloud" = false →
       (goLookup cfg "grpcHost").asString = none →
       NewClient lib cfg = .err "grpcHost is required in config") := by
  constructor
  · intro lib cfg hmiss
    unfold NewClient resolveIdentity resolveSchemeHost
    rw [hmiss]
    rfl
  · intro lib cfg h hh hnc hg
    obtain ⟨s, n, hsh⟩ := resolveSchemeHost_shape cfg h hh
    have hnc' : goContains (String.mk (h.data.drop n)) "weaviate.cloud" = false :=
      charsContain_drop_false _ _ _ hnc
    unfold NewClient resolveIdentity
    rw [hsh]
    simp only [GoResult.ok_bind]
    unfold resolveGrpc
    rw [hg, hnc']
    rfl

theorem newClient_missing_host_or_grpc_errors_witness :
    NewClient libOk [("grpcHost", GoVal.str "localhost:50051")] =
        .err "host is required in config"
    ∧ NewClient libOk [("host", GoVal.str "localhost:8080")] =
        .err "grpcHost is required in config" :=
  ⟨newClient_missing_host_or_grpc_errors.1 libOk _ rfl,
   newClient_missing_host_or_grpc_errors.2 libOk _ "localhost:8080" rfl rfl rfl⟩

/-- C2 counterexample: a host whose "http://" prefix is upper-case.
The lower-cased comparison fires, so the scheme becomes "http", but
`strings.TrimPrefix` compares case-sensitively against the original
host, so the prefix is *not* stripped: the resolved host still begins
with "HTTP://", contradicting the claim that the prefix is stripped for
every case-insensitive match. -/
theorem newClient_uppercase_scheme_not_stripped :
    NewClient libOk [("host", GoVal.str "HTTP://example.com"),
                     ("grpcHost", GoVal.str "localhost:50051")] =
      .ok { Host := "HTTP://example.com", Scheme := "http",
            GrpcHost := "localhost:50051", Auth := .none,
            Headers := none, StartupTimeoutSec := none }
    ∧ ("HTTP://example.com" : String) ≠ "example.com" :=
  ⟨rfl, by decide⟩

/-- C2 amended: when the host begins with the exact lower-case prefix
"http://" or "https://", `NewClient`'s scheme/host extraction strips it
and sets the scheme accordingly (overriding any explicit `scheme`
field); when the host begins with the prefix only case-insensitively,
the scheme is still set accordingly, but the host is left unstripped. -/
theorem newClient_host_scheme_extraction :
    (∀ (cfg : GoMap) (rest : String),
       (goLookup cfg "host").asString = some ("http://" ++ rest) →
       resolveSchemeHost cfg = .ok ("http", rest))
    ∧
    (∀ (cfg : GoMap) (rest : String),
       (goLookup cfg "host").asString = some ("https://" ++ rest) →
       resolveSchemeHost cfg = .ok ("https", rest))
    ∧
    (∀ (cfg : GoMap) (host : String),
       (goLookup cfg "host").asString = some host →
       goStartsWith (goToLower host) "http://" = true →
       goStartsWith host "http://" = false →
       resolveSchemeHost cfg = .ok ("http", host))
    ∧
    (∀ (cfg : GoMap) (host : String),
       (goLookup cfg "host").asString = some host →
       goStartsWith (goToLower host) "https://" = true →
       goStartsWith host "https://" = false →
       resolveSchemeHost cfg = .ok ("https", host)) := by
  refine ⟨?_, ?_, ?_, ?_⟩
  · intro cfg rest hh
    unfold resolveSchemeHost
    rw [hh]
    rfl
  · intro cfg rest hh
    unfold resolveSchemeHost
    rw [hh]
    rfl
  · intro cfg host hh h1 h2
    unfold resolveSchemeHost
    rw [hh]
    simp [h1, goTrimStart, h2]
  · intro cfg host hh h3 h4
    have h1 : goStartsWith (goToLower host) "http://" = false := by
      have hdec := charsStartWith_decomp h3
      unfold goStartsWith at hdec ⊢
      rw [hdec]
      rfl
    unfold resolveSchemeHost
    rw [hh]
    simp [h1, h3, goTrimStart, h4]

theorem newClient_host_scheme_extraction_witness :
    resolveSchemeHost [("scheme", GoVal.str "https"),
                       ("host", GoVal.str "http://example.com")] =
        .ok ("http", "example.com")
    ∧ resolveSchemeHost [("host", GoVal.str "https://example.com")] =
        .ok ("https", "example.com")
    ∧ resolveSchemeHost [("host", GoVal.str "HTTP://a")] = .ok ("http", "HTTP://a")
    ∧ resolveSchemeHost [("host", GoVal.str "HTTPS://a")] = .ok ("https", "HTTPS://a") :=
  ⟨newClient_host_scheme_extraction.1 _ "example.com" rfl,
   newClient_host_scheme_extraction.2.1 _ "example.com" rfl,
   newClient_host_scheme_extraction.2.2.1 _ "HTTP://a" rfl rfl rfl,
   newClient_host_scheme_extraction.2.2.2 _ "HTTPS://a" rfl rfl rfl⟩

/-- C3 counterexample: a Weaviate Cloud host with no port, but an
explicit `grpcHost` that already carries a port.  The scheme becomes
"https" and the host gets ":443", but the gRPC host keeps its own port
and does *not* end in ":443", contradicting the claim for every
configuration in its scope. -/
theorem newClient_cloud_explicit_grpc_port :
    NewClient libOk [("host", GoVal.str "demo.weaviate.cloud"),
                     ("grpcHost", GoVal.str "grpc.demo:50051")] =
      .ok { Host := "demo.weaviate.cloud:443", Scheme := "https",
            GrpcHost := "grpc.demo:50051", Auth := .none,
            Headers := none, StartupTimeoutSec := none }
    ∧ goEndsWith "grpc.demo:50051" ":443" = false :=
  ⟨rfl, rfl⟩

/-- C3 amended: for a (prefix-stripped) host containing "weaviate.cloud"
with no ":", the resolved scheme is "https" and the resolved host ends
in ":443"; the resolved gRPC host gets ":443" appended exactly when it
carries no ":" of its own — in particular always when it was derived
from the cloud host — so an explicit `grpcHost` already containing a
port keeps that port. -/
theorem newClient_cloud_port_inference :
    (∀ (cfg : GoMap) (s host g : String),
       resolveSchemeHost cfg = .ok (s, host) →
       goContains host "weaviate.cloud" = true →
       goContains host ":" = false →
       (goLookup cfg "grpcHost").asString = some g →
       ∃ c, resolveIdentity cfg = .ok c ∧ c.Scheme = "https" ∧
         c.Host = host ++ ":443" ∧
         c.GrpcHost = (if goContains g ":" = true then g else g ++ ":443") ∧
         goEndsWith c.Host ":443" = true ∧
         (goContains g ":" = false → goEndsWith c.GrpcHost ":443" = true))
    ∧
    (∀ (cfg : GoMap) (s host : String),
       resolveSchemeHost cfg = .ok (s, host) →
       goContains host "weaviate.cloud" = true →
       goContains host ":" = false →
       (goLookup cfg "grpcHost").asString = none →
       ∃ c, resolveIdentity cfg = .ok c ∧ c.Scheme = "https" ∧
         c.Host = host ++ ":443" ∧ c.GrpcHost = ("grpc-" ++ host) ++ ":443" ∧
         goEndsWith c.Host ":443" = true ∧ goEndsWith c.GrpcHost ":443" = true) := by
  constructor
  · intro cfg s host g hsh hm hc hg
    unfold resolveIdentity
    rw [hsh]
    simp only [GoResult.ok_bind]
    unfold resolveGrpc
    rw [hg]
    simp only [GoResult.ok_bind]
    unfold cloudAdjust
    rw [hm, hc]
    simp only [Bool.not_false, Bool.and_self]
    refine ⟨_, rfl, rfl, rfl, ?_, goEndsWith_append _ _, ?_⟩
    · by_cases hg2 : goContains g ":" = true
      · simp [hg2]
      · simp [hg2]
    · intro hga
      simp only [hga, if_neg (by simp : ¬(false = true))]
      simp only [show (!(goContains g ":")) = true by rw [hga]; rfl, if_pos]
      exact goEndsWith_append _ _
  · intro cfg s host hsh hm hc hg
    have hgrpc : goContains ("grpc-" ++ host) ":" = false := by
      show charsContain [':'] ("grpc-".data ++ host.data) = false
      rw [charsContain_single_append]
      have hc' : charsContain [':'] host.data = false := hc
      rw [hc']
      rfl
    simp only [resolveIdentity, resolveGrpc, cloudAdjust, hsh, hg, hm, hc, hgrpc,
      GoResult.ok_bind, Bool.not_false, Bool.and_self, if_true,
      ite_true, eq_self_iff_true]
    exact ⟨_, rfl, rfl, rfl, rfl, goEndsWith_append _ _, goEndsWith_append _ _⟩

theorem newClient_cloud_port_inference_witness :
    (∃ c, resolveIdentity [("host", GoVal.str "demo.weaviate.cloud"),
                           ("grpcHost", GoVal.str "g")] = .ok c ∧
       c.Scheme = "https" ∧ c.Host = "demo.weaviate.cloud" ++ ":443" ∧
       c.GrpcHost = (if goContains "g" ":" = true then "g" else "g" ++ ":443") ∧
       goEndsWith c.Host ":443" = true ∧
       (goContains "g" ":" = false → goEndsWith c.GrpcHost ":443" = true))
    ∧
    (∃ c, resolveIdentity [("host", GoVal.str "demo.weaviate.cloud")] = .ok c ∧
       c.Scheme = "https" ∧ c.Host = "demo.weaviate.cloud" ++ ":443" ∧
       c.GrpcHost = ("grpc-" ++ "demo.weaviate.cloud") ++ ":443" ∧
       goEndsWith c.Host ":443" = true ∧ goEndsWith c.GrpcHost ":443" = true) :=
  ⟨newClient_cloud_port_inference.1 _ "http" "demo.weaviate.cloud" "g" rfl rfl rfl rfl,
   newClient_cloud_port_inference.2 _ "http" "demo.weaviate.cloud" rfl rfl rfl rfl⟩

/-! ## Theorems about the batch marshaller -/

theorem buildBatchObject_ok (i : Nat) (obj : GoMap) (c : String)
    (h : (goLookup obj "class").asString = some c) :
    ∃ mo, buildBatchObject i obj = .ok mo := by
  unfold buildBatchObject
  rw [h]
  exact ⟨_, rfl⟩

theorem buildBatchObjectsFrom_missing_class :
    ∀ (objs : List GoMap) (k i : Nat) (hi : i < objs.length),
      (goLookup (objs.get ⟨i, hi⟩) "class").asString = none →
      (∀ j (hj : j < i), (goLookup (objs.get ⟨j, Nat.lt_trans hj hi⟩) "class").asString ≠ none) →
      buildBatchObjectsFrom k objs =
        .err ("object at index " ++ toString (k + i) ++ " missing class name") := by
  intro objs
  induction objs with
  | nil => intro k i hi; exact absurd hi (by simp)
  | cons o os ih =>
    intro k i hi hmiss hfirst
    cases i with
    | zero =>
      simp only [List.get] at hmiss
      unfold buildBatchObjectsFrom buildBatchObject
      rw [hmiss]
      simp
    | succ n =>
      have hhead : (goLookup o "class").asString ≠ none := by
        have h0 := hfirst 0 (Nat.succ_pos n)
        simpa using h0
      obtain ⟨c, hc⟩ : ∃ c, (goLookup o "class").asString = some c := by
        cases hx : (goLookup o "class").asString with
        | none => exact absurd hx hhead
        | some c => exact ⟨c, rfl⟩
      obtain ⟨mo, hmo⟩ := buildBatchObject_ok k o c hc
      have hi' : n < os.length := by simpa using hi
      have hmiss' : (goLookup (os.get ⟨n, hi'⟩) "class").asString = none := by
        simpa using hmiss
      have hfirst' : ∀ j (hj : j < n),
          (goLookup (os.get ⟨j, Nat.lt_trans hj hi'⟩) "class").asString ≠ none := by
        intro j hj
        have hx := hfirst (j + 1) (Nat.succ_lt_succ hj)
        simpa using hx
      unfold buildBatchObjectsFrom
      rw [hmo]
      simp only [GoResult.ok_bind]
      rw [ih (k + 1) n hi' hmiss' hfirst']
      simp only [GoResult.err_bind]
      have heq : k + 1 + n = k + (n + 1) := by omega
      rw [heq]

/-- C1: if entry `i` is the first one lacking a string `class`,
`BatchCreate` returns — for *every* library oracle, i.e. without
submitting anything — the single error naming index `i` and no results. -/
theorem batchCreate_missing_class_aborts_batch
    (objects : List GoMap) (i : Nat) (hi : i < objects.length)
    (hmiss : (goLookup (objects.get ⟨i, hi⟩) "class").asString = none)
    (hfirst : ∀ j (hj : j < i),
      (goLookup (objects.get ⟨j, Nat.lt_trans hj hi⟩) "class").asString ≠ none)
    (lib : List ModelsObject → Except String (List BatchResultItem)) :
    BatchCreate lib objects =
      .err ("object at index " ++ toString i ++ " missing class name") := by
  unfold BatchCreate buildBatchObjects
  rw [buildBatchObjectsFrom_missing_class objects 0 i hi hmiss hfirst]
  simp

theorem batchCreate_missing_class_aborts_batch_witness :
    BatchCreate (fun _ => Except.ok []) [[("class", GoVal.str "A")], []] =
      .err "object at index 1 missing class name" := by
  exact batchCreate_missing_class_aborts_batch [[("class", GoVal.str "A")], []] 1
    (by decide) rfl
    (fun j hj => by
      have hj0 : j = 0 := Nat.lt_one_iff.mp hj
      subst hj0
      exact (by decide : (goLookup [("class", GoVal.str "A")] "class").asString ≠ none))
    (fun _ => Except.ok [])

/-! ## Theorems about the consistency-level handling -/

theorem replicationMap_unknown {cl : String} (h : replicationMapHas cl = false) :
    replicationMap cl = "" := by
  unfold replicationMapHas at h
  obtain ⟨h1, h2, h3⟩ :
      (cl == "all") = false ∧ (cl == "one") = false ∧ (cl == "quorum") = false := by
    rcases Bool.or_eq_false_iff.mp h with ⟨hab, hc⟩
    rcases Bool.or_eq_false_iff.mp hab with ⟨ha, hb⟩
    exact ⟨ha, hb, hc⟩
  unfold replicationMap
  simp [h1, h2, h3]

/-- C4: a consistency-level string outside {"all","one","quorum"} makes
`ObjectInsert` return an error for every library oracle (no insert is
performed), while `BatchDelete`'s request build does not error and
degrades the consistency level to the empty string. -/
theorem consistency_level_asymmetry :
    (∀ (lib : DataCreator → Except String InsertResponseObject)
       (className : String) (object : GoMap) (cl : String),
       (goLookup object "consistencyLevel").asString = some cl →
       replicationMapHas cl = false →
       ObjectInsert lib className object = .err ("invalid consistency level: " ++ cl))
    ∧
    (∀ (className : String) (options : GoMap) (cl : String),
       (goLookup options "consistencyLevel").asString = some cl →
       replicationMapHas cl = false →
       goLookup options "where" = GoVal.nil →
       ∃ d, batchDeleteBuild className options = .ok d ∧
         d.ConsistencyLevel = some "") := by
  constructor
  · intro lib className object cl hcl hbad
    unfold ObjectInsert objectInsertBuild
    rw [hcl]
    simp [hbad]
  · intro className options cl hcl hbad hwhere
    unfold batchDeleteBuild
    rw [hwhere, hcl]
    simp [GoVal.asMap, replicationMap_unknown hbad]

theorem consistency_level_asymmetry_witness :
    ObjectInsert (fun _ => Except.error "unreachable") "Doc"
        [("consistencyLevel", GoVal.str "eventual")] =
      .err "invalid consistency level: eventual"
    ∧ ∃ d, batchDeleteBuild "Doc" [("consistencyLevel", GoVal.str "eventual")] = .ok d ∧
        d.ConsistencyLevel = some "" :=
  ⟨consistency_level_asymmetry.1 _ "Doc" _ "eventual" rfl rfl,
   consistency_level_asymmetry.2 "Doc" _ "eventual" rfl rfl rfl⟩

/-! ## Theorems about the batch-result flattening -/

/-- A library batch result whose `Result` pointer and `Status` pointer
are both non-nil — the precondition under which the flattening of
lines 410–424 is total. -/
def wellFormedResult (r : BatchResultItem) : Prop :=
  ∃ p st, r.Result = some p ∧ p.Status = some st

/-- The status string carried (through the nullable `Result`) by a
library batch result. -/
def resultStatus (r : BatchResultItem) : Option String :=
  r.Result.bind fun p => p.Status

/-- The error payload carried (through the nullable `Result`) by a
library batch result. -/
def resultErrors (r : BatchResultItem) : Option GoVal :=
  r.Result.bind fun p => p.Errors

theorem flattenBatchResult_spec (r : BatchResultItem) (p : BatchResultPayload)
    (st : String) (hr : r.Result = some p) (hst : p.Status = some st) :
    ∃ m, flattenBatchResult r = .ok m ∧
      goLookup m "class" = .str r.Class ∧
      goLookup m "id" = .str r.ID ∧
      goLookup m "status" =
        (if p.Errors.isSome then GoVal.str "error" else GoVal.str (goToLower st)) ∧
      goHasKey m "error" = p.Errors.isSome ∧
      goLookup m "error" = p.Errors.getD GoVal.nil := by
  rcases r with ⟨rClass, rID, rRes⟩
  rcases p with ⟨pStatus, pErrors⟩
  have hr' : rRes = some ⟨pStatus, pErrors⟩ := hr
  have hst' : pStatus = some st := hst
  subst hr'
  subst hst'
  rcases pErrors with _ | v
  · exact ⟨_, rfl, rfl, rfl, rfl, rfl, rfl⟩
  · exact ⟨_, rfl, rfl, rfl, rfl, rfl, rfl⟩

theorem flattenBatchResults_spec :
    ∀ (results : List BatchResultItem),
      (∀ r ∈ results, wellFormedResult r) →
      ∃ out, flattenBatchResults results = .ok out ∧
        out.length = results.length ∧
        ∀ (j : Nat) (hjo : j < out.length) (hjr : j < results.length),
          goLookup (out.get ⟨j, hjo⟩) "class" = .str (results.get ⟨j, hjr⟩).Class ∧
          goLookup (out.get ⟨j, hjo⟩) "id" = .str (results.get ⟨j, hjr⟩).ID ∧
          goLookup (out.get ⟨j, hjo⟩) "status" =
            (if (resultErrors (results.get ⟨j, hjr⟩)).isSome then GoVal.str "error"
             else GoVal.str (goToLower ((resultStatus (results.get ⟨j, hjr⟩)).getD ""))) ∧
          goHasKey (out.get ⟨j, hjo⟩) "error" =
            (resultErrors (results.get ⟨j, hjr⟩)).isSome ∧
          goLookup (out.get ⟨j, hjo⟩) "error" =
            (resultErrors (results.get ⟨j, hjr⟩)).getD GoVal.nil := by
  intro results
  induction results with
  | nil =>
    intro
    exact ⟨[], rfl, rfl, fun j hjo => absurd hjo (by simp)⟩
  | cons r rs ih =>
    intro hwf
    obtain ⟨p, st, hr, hst⟩ := hwf r (List.mem_cons_self r rs)
    obtain ⟨m, hm, hcl, hid, hstatus, hhk, herr⟩ := flattenBatchResult_spec r p st hr hst
    obtain ⟨out, hout, hlen, hprops⟩ := ih (fun x hx => hwf x (List.mem_cons_of_mem r hx))
    refine ⟨m :: out, ?_, by simp [hlen], ?_⟩
    · unfold flattenBatchResults
      rw [hm, hout]
      rfl
    · intro j hjo hjr
      cases j with
      | zero =>
        have he1 : resultErrors r = p.Errors := by
          unfold resultErrors
          rw [hr]
          rfl
        have he2 : resultStatus r = some st := by
          unfold resultStatus
          rw [hr]
          exact hst
        have hg1 : ((m :: out).get ⟨0, hjo⟩) = m := rfl
        have hg2 : (((r :: rs).get ⟨0, hjr⟩)) = r := rfl
        rw [hg1, hg2, he1, he2]
        simp only [Option.getD_some]
        exact ⟨hcl, hid, hstatus, hhk, herr⟩
      | succ n =>
        have hjo' : n < out.length := by simpa using hjo
        have hjr' : n < rs.length := by simpa using hjr
        simpa using hprops n hjo' hjr'

/-- C5 counterexample: the library reports a result whose nominal status
is "ERROR" with *no* embedded error payload.  The flattened entry's
status is "error" (the lower-cased nominal status) even though the
library reported no embedded error, refuting the claimed "if and only
if". -/
theorem batchCreate_status_error_without_errors :
    BatchCreate
        (fun _ => Except.ok [{ Class := "Doc", ID := "0001",
                               Result := some { Status := some "ERROR", Errors := none } }])
        [[("class", GoVal.str "Doc")]] =
      .ok [[("class", GoVal.str "Doc"), ("id", GoVal.str "0001"),
            ("status", GoVal.str "error")]]
    ∧ resultErrors { Class := "Doc", ID := "0001",
                     Result := some { Status := some "ERROR", Errors := none } } = none :=
  ⟨rfl, rfl⟩

/-- C5 amended: for a batch of valid objects whose submission succeeds
and whose library results are well-formed (non-nil `Result`/`Status` —
see the totality claim) and one-per-object, `BatchCreate` returns
exactly one entry per input, in order; an entry's status is "error"
*if* the library reported an embedded error (whose payload is attached
under "error"), and otherwise is the lower-cased library status — so it
can also read "error" when the nominal status itself lower-cases to
"error". -/
theorem batchCreate_result_flattening
    (lib : List ModelsObject → Except String (List BatchResultItem))
    (objects : List GoMap) (mos : List ModelsObject)
    (results : List BatchResultItem)
    (hbuild : buildBatchObjects objects = .ok mos)
    (hlib : lib mos = Except.ok results)
    (hN : results.length = objects.length)
    (hwf : ∀ r ∈ results, wellFormedResult r) :
    ∃ out, BatchCreate lib objects = .ok out ∧
      out.length = objects.length ∧
      ∀ (j : Nat) (hjo : j < out.length) (hjr : j < results.length),
        goLookup (out.get ⟨j, hjo⟩) "class" = .str (results.get ⟨j, hjr⟩).Class ∧
        goLookup (out.get ⟨j, hjo⟩) "id" = .str (results.get ⟨j, hjr⟩).ID ∧
        goLookup (out.get ⟨j, hjo⟩) "status" =
          (if (resultErrors (results.get ⟨j, hjr⟩)).isSome then GoVal.str "error"
           else GoVal.str (goToLower ((resultStatus (results.get ⟨j, hjr⟩)).getD ""))) ∧
        goHasKey (out.get ⟨j, hjo⟩) "error" =
          (resultErrors (results.get ⟨j, hjr⟩)).isSome ∧
        goLookup (out.get ⟨j, hjo⟩) "error" =
          (resultErrors (results.get ⟨j, hjr⟩)).getD GoVal.nil := by
  obtain ⟨out, hout, hlen, hprops⟩ := flattenBatchResults_spec results hwf
  refine ⟨out, ?_, by rw [hlen, hN], hprops⟩
  unfold BatchCreate
  rw [hbuild]
  simp only [GoResult.ok_bind]
  rw [hlib]
  exact hout

/-- A concrete library oracle: one successful submission with an
embedded per-entry error. -/
def libOneError : List ModelsObject → Except String (List BatchResultItem) :=
  fun _ => Except.ok
    [{ Class := "Doc", ID := "0001",
       Result := some { Status := some "SUCCESS", Errors := some (GoVal.str "boom") } }]

theorem batchCreate_result_flattening_witness :
    ∃ out, BatchCreate libOneError [[("class", GoVal.str "Doc")]] = .ok out ∧
      out.length = [[("class", GoVal.str "Doc")]].length ∧
      ∀ (j : Nat) (hjo : j < out.length)
        (hjr : j < [{ Class := "Doc", ID := "0001",
                      Result := some { Status := some "SUCCESS",
                                       Errors := some (GoVal.str "boom") } }].length),
        goLookup (out.get ⟨j, hjo⟩) "class" =
          .str ([{ Class := "Doc", ID := "0001",
                   Result := some { Status := some "SUCCESS",
                                    Errors := some (GoVal.str "boom") } }].get ⟨j, hjr⟩).Class ∧
        goLookup (out.get ⟨j, hjo⟩) "id" =
          .str ([{ Class := "Doc", ID := "0001",
                   Result := some { Status := some "SUCCESS",
                                    Errors := some (GoVal.str "boom") } }].get ⟨j, hjr⟩).ID ∧
        goLookup (out.get ⟨j, hjo⟩) "status" =
          (if (resultErrors ([{ Class := "Doc", ID := "0001",
                                Result := some { Status := some "SUCCESS",
                                                 Errors := some (GoVal.str "boom") } }].get
                  ⟨j, hjr⟩)).isSome then GoVal.str "error"
           else GoVal.str (goToLower ((resultStatus
              ([{ Class := "Doc", ID := "0001",
                  Result := some { Status := some "SUCCESS",
                                   Errors := some (GoVal.str "boom") } }].get
                  ⟨j, hjr⟩)).getD ""))) ∧
        goHasKey (out.get ⟨j, hjo⟩) "error" =
          (resultErrors ([{ Class := "Doc", ID := "0001",
                            Result := some { Status := some "SUCCESS",
                                             Errors := some (GoVal.str "boom") } }].get
              ⟨j, hjr⟩)).isSome ∧
        goLookup (out.get ⟨j, hjo⟩) "error" =
          (resultErrors ([{ Class := "Doc", ID := "0001",
                            Result := some { Status := some "SUCCESS",
                                             Errors := some (GoVal.str "boom") } }].get
              ⟨j, hjr⟩)).getD GoVal.nil := by
  refine batchCreate_result_flattening libOneError [[("class", GoVal.str "Doc")]]
    [{ Class := "Doc", ID := none, Properties := none, Vector := none,
       Vectors := none, VectorWeights := none, Tenant := none }]
    [{ Class := "Doc", ID := "0001",
       Result := some { Status := some "SUCCESS", Errors := some (GoVal.str "boom") } }]
    rfl rfl rfl ?_
  intro r hrmem
  rw [List.mem_singleton.mp hrmem]
  exact ⟨_, _, rfl, rfl⟩

/-- C10: the flattening of `BatchCreate` results is total exactly under
the precondition that every library entry carries a non-nil `Result`
with a non-nil `Status`; one entry violating it makes the flattening —
and hence `BatchCreate` — crash with a nil-pointer dereference instead
of producing an "error" entry, because the source dereferences
`result.Result.Status` before its nil check on `result.Result`. -/
theorem batchCreate_flatten_totality :
    (∀ results : List BatchResultItem,
       (∀ r ∈ results, wellFormedResult r) →
       ∃ out, flattenBatchResults results = .ok out)
    ∧
    (∀ results : List BatchResultItem,
       (∃ r ∈ results, ¬wellFormedResult r) →
       flattenBatchResults results = .crash nilDerefMsg)
    ∧
    (∀ (lib : List ModelsObject → Except String (List BatchResultItem))
       (objects : List GoMap) (mos : List ModelsObject)
       (results : List BatchResultItem),
       buildBatchObjects objects = .ok mos →
       lib mos = Except.ok results →
       (∃ r ∈ results, ¬wellFormedResult r) →
       BatchCreate lib objects = .crash nilDerefMsg) := by
  have hcases : ∀ x : BatchResultItem,
      (∃ m, flattenBatchResult x = .ok m) ∨
        flattenBatchResult x = .crash nilDerefMsg := by
    intro x
    rcases x with ⟨xc, xid, xres⟩
    rcases xres with _ | ⟨pst, perr⟩
    · exact Or.inr rfl
    · rcases pst with _ | st
      · exact Or.inr rfl
      · rcases perr with _ | v
        · exact Or.inl ⟨_, rfl⟩
        · exact Or.inl ⟨_, rfl⟩
  have hcrash : ∀ results : List BatchResultItem,
      (∃ r ∈ results, ¬wellFormedResult r) →
      flattenBatchResults results = .crash nilDerefMsg := by
    intro results
    induction results with
    | nil =>
      rintro ⟨r, hr, _⟩
      simp at hr
    | cons x rs ih =>
      rintro ⟨r, hr, hnwf⟩
      rcases List.mem_cons.mp hr with heq | hmem
      · subst heq
        rcases r with ⟨rc, rid, rres⟩
        rcases rres with _ | ⟨pst, perr⟩
        · rfl
        · rcases pst with _ | st
          · rfl
          · exact absurd ⟨⟨some st, perr⟩, st, rfl, rfl⟩ hnwf
      · rcases hcases x with ⟨m, hm⟩ | hc
        · unfold flattenBatchResults
          rw [hm]
          simp only [GoResult.ok_bind]
          rw [ih ⟨r, hmem, hnwf⟩]
          rfl
        · unfold flattenBatchResults
          rw [hc]
          rfl
  refine ⟨?_, hcrash, ?_⟩
  · intro results hwf
    obtain ⟨out, hout, -⟩ := flattenBatchResults_spec results hwf
    exact ⟨out, hout⟩
  · intro lib objects mos results hbuild hlib hbad
    unfold BatchCreate
    rw [hbuild]
    simp only [GoResult.ok_bind]
    rw [hlib]
    exact hcrash results hbad

/-- A concrete library oracle returning a result with a nil `Result`
pointer. -/
def libNilResult : List ModelsObject → Except String (List BatchResultItem) :=
  fun _ => Except.ok [{ Class := "Doc", ID := "0001", Result := none }]

theorem batchCreate_flatten_totality_witness :
    (∃ out, flattenBatchResults
        [{ Class := "Doc", ID := "0001",
           Result := some { Status := some "SUCCESS", Errors := none } }] = .ok out)
    ∧ flattenBatchResults [{ Class := "Doc", ID := "0001", Result := none }] =
        .crash nilDerefMsg
    ∧ BatchCreate libNilResult [[("class", GoVal.str "Doc")]] = .crash nilDerefMsg := by
  refine ⟨batchCreate_flatten_totality.1 _ ?_,
          batchCreate_flatten_totality.2.1 _ ⟨_, List.mem_singleton_self _, ?_⟩,
          batchCreate_flatten_totality.2.2 libNilResult _
            [{ Class := "Doc", ID := none, Properties := none, Vector := none,
               Vectors := none, VectorWeights := none, Tenant := none }]
            [{ Class := "Doc", ID := "0001", Result := none }] rfl rfl
            ⟨_, List.mem_singleton_self _, ?_⟩⟩
  · intro r hrmem
    rw [List.mem_singleton.mp hrmem]
    exact ⟨_, _, rfl, rfl⟩
  · rintro ⟨p, st, hp, -⟩
    exact Option.noConfusion hp
  · rintro ⟨p, st, hp, -⟩
    exact Option.noConfusion hp

/-! ## Theorems about the schema property builder -/

theorem buildProperties_crash :
    ∀ (props : List GoVal) (i : Nat) (hi : i < props.length) (msg : String),
      buildProperty (props.get ⟨i, hi⟩) = .crash msg →
      (∀ j (hj : j < i), ∃ r, buildProperty (props.get ⟨j, Nat.lt_trans hj hi⟩) = .ok r) →
      buildProperties props = .crash msg := by
  intro props
  induction props with
  | nil => intro i hi; exact absurd hi (by simp)
  | cons p ps ih =>
    intro i hi msg hcrash hok
    cases i with
    | zero =>
      have hcrash' : buildProperty p = .crash msg := hcrash
      unfold buildProperties
      rw [hcrash']
      rfl
    | succ n =>
      obtain ⟨r, hr⟩ := hok 0 (Nat.succ_pos n)
      have hr' : buildProperty p = .ok r := hr
      unfold buildProperties
      rw [hr']
      simp only [GoResult.ok_bind]
      rw [ih n (by simpa using hi) msg (by simpa using hcrash)
        (fun j hj => by simpa using hok (j + 1) (Nat.succ_lt_succ hj))]
      rfl

/-- C6 counterexample: a property mapping with a `name` but *no*
`dataType`.  The build does not fail: it silently produces a property
descriptor whose data-type list is nil, refuting the claim's "fails
hard whenever the mapping lacks dataType". -/
theorem createCollection_missing_dataType_silent :
    buildCollectionClass "Doc"
        [("properties", GoVal.list [GoVal.map [("name", GoVal.str "p")]])] =
      .ok { Class := "Doc", Description := "",
            Properties := [{ Name := "p", Description := "", DataType := none,
                             Tokenization := "" }],
            Vectorizer := "", VectorIndexType := "", VectorIndexConfig := none,
            VectorConfig := none, InvertedIndexConfig := none,
            MultiTenancyConfig := none, ReplicationConfig := none } := rfl

/-- C6 amended: a property mapping lacking a string `name` makes the
build fail hard (a Go panic from the unchecked assertion), and that
panic propagates out of the whole collection build; a property mapping
lacking `dataType`, however, builds fine with a silently-nil data-type
list (`dataType` *is* optional-with-fallback). -/
theorem createCollection_property_name_dataType :
    (∀ (m : GoMap), (goLookup m "name").asString = none →
       buildProperty (GoVal.map m) = .crash interfaceConversionMsg)
    ∧
    (∀ (collectionName : String) (cc : GoMap) (props : List GoVal)
       (m : GoMap) (i : Nat) (hi : i < props.length),
       goLookup cc "invertedIndexConfig" = GoVal.nil →
       goLookup cc "properties" = GoVal.list props →
       props.get ⟨i, hi⟩ = GoVal.map m →
       (goLookup m "name").asString = none →
       (∀ j (hj : j < i), ∃ r, buildProperty (props.get ⟨j, Nat.lt_trans hj hi⟩) = .ok r) →
       buildCollectionClass collectionName cc = .crash interfaceConversionMsg)
    ∧
    (∀ (m : GoMap) (nm : String),
       (goLookup m "name").asString = some nm →
       goLookup m "dataType" = GoVal.nil →
       buildProperty (GoVal.map m) =
         .ok (some { Name := nm, Description := GetStringValue m "description",
                     DataType := none,
                     Tokenization := GetStringValue m "tokenization" })) := by
  have hname_crash : ∀ (m : GoMap), (goLookup m "name").asString = none →
      buildProperty (GoVal.map m) = .crash interfaceConversionMsg := by
    intro m hname
    unfold buildProperty
    simp only [GoVal.asMap]
    rw [hname]
  refine ⟨hname_crash, ?_, ?_⟩
  · intro collectionName cc props m i hi hinv hprops hentry hname hok
    have hcrash : buildProperty (props.get ⟨i, hi⟩) = .crash interfaceConversionMsg := by
      rw [hentry]
      exact hname_crash m hname
    unfold buildCollectionClass
    rw [hinv, hprops]
    simp only [GoVal.asMap, GoVal.asList, GoResult.ok_bind]
    rw [buildProperties_crash props i hi interfaceConversionMsg hcrash hok]
    rfl
  · intro m nm hname hdt
    unfold buildProperty
    simp only [GoVal.asMap]
    rw [hname, hdt]
    rfl

theorem createCollection_property_name_dataType_witness :
    buildProperty (GoVal.map []) = .crash interfaceConversionMsg
    ∧ buildCollectionClass "Doc" [("properties", GoVal.list [GoVal.map []])] =
        .crash interfaceConversionMsg
    ∧ buildProperty (GoVal.map [("name", GoVal.str "p")]) =
        .ok (some { Name := "p", Description := GetStringValue [("name", GoVal.str "p")] "description",
                    DataType := none,
                    Tokenization := GetStringValue [("name", GoVal.str "p")] "tokenization" }) :=
  ⟨createCollection_property_name_dataType.1 [] rfl,
   createCollection_property_name_dataType.2.1 "Doc" _ [GoVal.map []] [] 0 (by decide)
     rfl rfl rfl rfl (fun j hj => absurd hj (Nat.not_lt_zero j)),
   createCollection_property_name_dataType.2.2 [("name", GoVal.str "p")] "p" rfl rfl⟩

/-! ## Theorems about generic-sequence conversions and additional-properties handling -/

theorem stringElems_crash :
    ∀ (xs : List GoVal) (v : GoVal), v ∈ xs → v.asString = none →
      stringElems xs = .crash interfaceConversionMsg := by
  intro xs
  induction xs with
  | nil => intro v hv; simp at hv
  | cons x rest ih =>
    intro v hv hns
    rcases List.mem_cons.mp hv with heq | hmem
    · subst heq
      unfold stringElems
      rw [hns]
    · cases hx : x.asString with
      | none =>
        unfold stringElems
        rw [hx]
      | some s =>
        unfold stringElems
        rw [hx, ih v hmem hns]
        rfl

theorem foldl_applyAdditional :
    ∀ (ps : List String) (g : ObjectsGetter),
      ((ps.foldl applyAdditionalProp g).Additional =
        g.Additional ++ ps.filter (fun p => !(p == "vector") && !(p == "id")))
      ∧ ((ps.foldl applyAdditionalProp g).QueryVector =
        (g.QueryVector || ps.contains "vector")) := by
  intro ps
  induction ps with
  | nil => intro g; simp
  | cons p ps ih =>
    intro g
    by_cases hv : p = "vector"
    · subst hv
      have happ : applyAdditionalProp g "vector" = { g with QueryVector := true } := rfl
      simp only [List.foldl_cons, happ, List.filter_cons, List.contains_cons]
      constructor
      · rw [(ih _).1]
        simp
      · rw [(ih _).2]
        simp
    · by_cases hid : p = "id"
      · subst hid
        have happ : applyAdditionalProp g "id" = g := rfl
        simp only [List.foldl_cons, happ, List.filter_cons, List.contains_cons]
        constructor
        · rw [(ih _).1]
          simp
        · rw [(ih _).2]
          simp [Ne.symm hv]
      · have h1 : (p == "vector") = false := beq_eq_false_iff_ne.mpr hv
        have h2 : (p == "id") = false := beq_eq_false_iff_ne.mpr hid
        have happ : applyAdditionalProp g p =
            { g with Additional := g.Additional ++ [p] } := by
          unfold applyAdditionalProp
          rw [h1, h2]
          rfl
        simp only [List.foldl_cons, happ, List.filter_cons, List.contains_cons]
        constructor
        · rw [(ih _).1]
          simp [h1, h2, List.append_assoc]
        · rw [(ih _).2]
          simp [beq_eq_false_iff_ne.mpr (Ne.symm hv)]

theorem fetchObjectsBase_additional (className : String) (options : GoMap) :
    (fetchObjectsBase className options).Additional = []
    ∧ (fetchObjectsBase className options).QueryVector = false := by
  constructor <;>
    (unfold fetchObjectsBase
     repeat' split) <;> rfl

theorem contains_filter_false (l : List String) (s : String) (pred : String → Bool)
    (hs : pred s = false) : (l.filter pred).contains s = false := by
  rw [Bool.eq_false_iff]
  intro h
  have hmem : s ∈ l.filter pred := List.elem_iff.mp h
  have hp := (List.mem_filter.mp hmem).2
  rw [hs] at hp
  exact Bool.noConfusion hp

/-- C7 counterexample: `FetchObjects` with `additional` containing a
non-string element.  The conversion is *not* fatal: the element's slot
silently becomes the zero value `""`, which is then passed along as a
generic additional property, and the whole call still succeeds. -/
theorem fetchObjects_nonstring_additional_lenient :
    fetchObjectsBuild "Doc" [("additional", GoVal.list [GoVal.int 5])] =
      { ClassName := "Doc", Additional := [""] }
    ∧ FetchObjects (fun _ => Except.ok []) "Doc"
        [("additional", GoVal.list [GoVal.int 5])] =
      .ok [("objects", GoVal.list [])] :=
  ⟨rfl, rfl⟩

/-- C7 amended: element-wise generic-sequence string conversions in
`GetStringSlice` and in `BatchDelete`'s `path` and `valueText` handling
are fatal, unrecovered failures (Go panics) on a non-string element;
the `additional` conversion in `FetchObjects`, however, uses a comma-ok
assertion and silently substitutes the empty string for a non-string
element instead of failing. -/
theorem sequence_conversion_strictness :
    (∀ (xs : List GoVal) (v : GoVal), v ∈ xs → v.asString = none →
       GetStringSlice (GoVal.list xs) = .crash interfaceConversionMsg)
    ∧
    (∀ (className : String) (options : GoMap) (wf : GoMap)
       (pathVals : List GoVal) (v : GoVal),
       goLookup options "where" = GoVal.map wf →
       goLookup wf "path" = GoVal.list pathVals →
       v ∈ pathVals → v.asString = none →
       batchDeleteBuild className options = .crash interfaceConversionMsg)
    ∧
    (∀ (className : String) (options : GoMap) (wf : GoMap)
       (vt : List GoVal) (v : GoVal),
       goLookup options "where" = GoVal.map wf →
       goLookup wf "path" = GoVal.nil →
       goLookup wf "valueText" = GoVal.list vt →
       v ∈ vt → v.asString = none →
       batchDeleteBuild className options = .crash interfaceConversionMsg)
    ∧
    (∀ (className : String) (options : GoMap) (xs : List GoVal),
       goLookup options "additional" = GoVal.list xs →
       (fetchObjectsBuild className options).Additional =
         (xs.map fun v => v.asString.getD "").filter
           (fun p => !(p == "vector") && !(p == "id"))) := by
  refine ⟨?_, ?_, ?_, ?_⟩
  · intro xs v hv hns
    show (stringElems xs).bind (fun ss => GoResult.ok (some ss)) =
      GoResult.crash interfaceConversionMsg
    rw [stringElems_crash xs v hv hns]
    rfl
  · intro className options wf pathVals v hwhere hpath hmem hns
    unfold batchDeleteBuild
    rw [hwhere]
    simp only [GoVal.asMap]
    unfold buildWhere
    rw [hpath]
    simp only [GoVal.asStrList, GoVal.asList]
    rw [stringElems_crash pathVals v hmem hns]
    rfl
  · intro className options wf vt v hwhere hpath hvt hmem hns
    unfold batchDeleteBuild
    rw [hwhere]
    simp only [GoVal.asMap]
    unfold buildWhere
    rw [hpath, hvt]
    simp only [GoVal.asStrList, GoVal.asList]
    rw [stringElems_crash vt v hmem hns]
    rfl
  · intro className options xs hadd
    unfold fetchObjectsBuild
    rw [hadd]
    simp only [GoVal.asList]
    rw [(foldl_applyAdditional _ _).1, (fetchObjectsBase_additional className options).1]
    rfl

theorem sequence_conversion_strictness_witness :
    GetStringSlice (GoVal.list [GoVal.int 5]) = .crash interfaceConversionMsg
    ∧ batchDeleteBuild "Doc" [("where", GoVal.map [("path", GoVal.list [GoVal.bool true])])] =
        .crash interfaceConversionMsg
    ∧ batchDeleteBuild "Doc" [("where", GoVal.map [("valueText", GoVal.list [GoVal.int 7])])] =
        .crash interfaceConversionMsg
    ∧ (fetchObjectsBuild "Doc" [("additional", GoVal.list [GoVal.int 5])]).Additional =
        (([GoVal.int 5].map fun v => v.asString.getD "").filter
          (fun p => !(p == "vector") && !(p == "id"))) :=
  ⟨sequence_conversion_strictness.1 [GoVal.int 5] (GoVal.int 5)
     (List.mem_singleton_self _) rfl,
   sequence_conversion_strictness.2.1 "Doc" _ [("path", GoVal.list [GoVal.bool true])]
     [GoVal.bool true] (GoVal.bool true) rfl rfl (List.mem_singleton_self _) rfl,
   sequence_conversion_strictness.2.2.1 "Doc" _ [("valueText", GoVal.list [GoVal.int 7])]
     [GoVal.int 7] (GoVal.int 7) rfl rfl rfl (List.mem_singleton_self _) rfl,
   sequence_conversion_strictness.2.2.2 "Doc" _ [GoVal.int 5] rfl⟩

/-- C9: in `FetchObjects`'s `additional` handling, "id" is skipped (the
call does not error and "id" is never passed as an additional
property), and "vector" switches on query-level vector retrieval
instead of being passed as a generic additional property — in both the
generic-sequence and the string-slice branch. -/
theorem fetchObjects_additional_special_cases :
    (∀ (className : String) (options : GoMap) (props : List GoVal),
       goLookup options "additional" = GoVal.list props →
       ((fetchObjectsBuild className options).Additional.contains "id") = false ∧
       ((fetchObjectsBuild className options).Additional.contains "vector") = false ∧
       (fetchObjectsBuild className options).QueryVector =
         ((props.map fun v => v.asString.getD "").contains "vector") ∧
       (∀ (lib : ObjectsGetter → Except String (List FetchedObject))
          (objs : List FetchedObject),
          lib (fetchObjectsBuild className options) = Except.ok objs →
          ∃ out, FetchObjects lib className options = .ok out))
    ∧
    (∀ (className : String) (options : GoMap) (props : List String),
       goLookup options "additional" = GoVal.strList props →
       (fetchObjectsBuild className options).Additional =
         props.filter (fun p => !(p == "vector") && !(p == "id")) ∧
       (fetchObjectsBuild className options).QueryVector = (props.contains "vector")) := by
  constructor
  · intro className options props hadd
    have hAdd : (fetchObjectsBuild className options).Additional =
        (props.map fun v => v.asString.getD "").filter
          (fun p => !(p == "vector") && !(p == "id")) := by
      unfold fetchObjectsBuild
      rw [hadd]
      simp only [GoVal.asList]
      rw [(foldl_applyAdditional _ _).1, (fetchObjectsBase_additional className options).1]
      rfl
    have hQV : (fetchObjectsBuild className options).QueryVector =
        ((props.map fun v => v.asString.getD "").contains "vector") := by
      unfold fetchObjectsBuild
      rw [hadd]
      simp only [GoVal.asList]
      rw [(foldl_applyAdditional _ _).2, (fetchObjectsBase_additional className options).2]
      rfl
    refine ⟨?_, ?_, hQV, ?_⟩
    · rw [hAdd]
      exact contains_filter_false _ _ _ rfl
    · rw [hAdd]
      exact contains_filter_false _ _ _ rfl
    · intro lib objs hlib
      unfold FetchObjects
      rw [hlib]
      exact ⟨_, rfl⟩
  · intro className options props hadd
    constructor
    · unfold fetchObjectsBuild
      rw [hadd]
      simp only [GoVal.asList, GoVal.asStrList]
      rw [(foldl_applyAdditional _ _).1, (fetchObjectsBase_additional className options).1]
      rfl
    · unfold fetchObjectsBuild
      rw [hadd]
      simp only [GoVal.asList, GoVal.asStrList]
      rw [(foldl_applyAdditional _ _).2, (fetchObjectsBase_additional className options).2]
      rfl

theorem fetchObjects_additional_special_cases_witness :
    ((fetchObjectsBuild "Doc"
        [("additional", GoVal.list [GoVal.str "id", GoVal.str "vector",
                                    GoVal.str "distance"])]).Additional.contains "id") = false
    ∧ ((fetchObjectsBuild "Doc"
        [("additional", GoVal.list [GoVal.str "id", GoVal.str "vector",
                                    GoVal.str "distance"])]).Additional.contains "vector") = false
    ∧ (fetchObjectsBuild "Doc"
        [("additional", GoVal.list [GoVal.str "id", GoVal.str "vector",
                                    GoVal.str "distance"])]).QueryVector =
        (([GoVal.str "id", GoVal.str "vector", GoVal.str "distance"].map
            fun v => v.asString.getD "").contains "vector")
    ∧ (∃ out, FetchObjects (fun _ => Except.ok []) "Doc"
        [("additional", GoVal.list [GoVal.str "id", GoVal.str "vector",
                                    GoVal.str "distance"])] = .ok out)
    ∧ (fetchObjectsBuild "Doc"
        [("additional", GoVal.strList ["id", "vector"])]).Additional =
        (["id", "vector"].filter (fun p => !(p == "vector") && !(p == "id")))
    ∧ (fetchObjectsBuild "Doc"
        [("additional", GoVal.strList ["id", "vector"])]).QueryVector =
        (["id", "vector"].contains "vector") := by
  have h1 := fetchObjects_additional_special_cases.1 "Doc"
    [("additional", GoVal.list [GoVal.str "id", GoVal.str "vector", GoVal.str "distance"])]
    [GoVal.str "id", GoVal.str "vector", GoVal.str "distance"] rfl
  have h2 := fetchObjects_additional_special_cases.2 "Doc"
    [("additional", GoVal.strList ["id", "vector"])] ["id", "vector"] rfl
  exact ⟨h1.1, h1.2.1, h1.2.2.1, h1.2.2.2 _ [] rfl, h2.1, h2.2⟩

end XkWeaviate
